import Mathlib

set_option maxRecDepth 8000

/-!
Verification development for the rfq-rocket-backend text pipeline: the
extraction response parsing of src/ai_extractor.py and the categorized
pattern redaction engine of src/redactor.py, shallowly embedded as
executable Lean definitions.
-/

namespace RfqRocket

/-- Values of the dynamic (Python style) records handled by the pipeline:
strings, rational numbers (standing for Python int/float literals such as
0.5 that are exactly representable), booleans, null, lists and ordered
dictionaries (association lists in insertion order, as Python dicts). -/
inductive PyVal : Type where
  | vStr : String → PyVal
  | vNum : ℚ → PyVal
  | vBool : Bool → PyVal
  | vNull : PyVal
  | vList : List PyVal → PyVal
  | vDict : List (String × PyVal) → PyVal

open PyVal

/-- Lookup of a key in an ordered record, first occurrence wins. -/
def lookupKey : List (String × PyVal) → String → Option PyVal
  | [], _ => none
  | (k, v) :: rest, key => if k = key then some v else lookupKey rest key

/-- Python dict assignment: update the value at the first occurrence of the
key, keeping its position, or append the binding at the end. -/
def setKey : List (String × PyVal) → String → PyVal → List (String × PyVal)
  | [], key, val => [(key, val)]
  | (k, v) :: rest, key, val =>
    if k = key then (k, val) :: rest else (k, v) :: setKey rest key val

/-- The keys of a record, in order. -/
def keysOf (l : List (String × PyVal)) : List String := l.map Prod.fst

/-- Remove every binding of a key from a record. -/
def eraseKey (l : List (String × PyVal)) (key : String) : List (String × PyVal) :=
  l.filter (fun e => e.1 != key)

/-- Word characters of the re module word boundary, ASCII scope. -/
def isWordChar (c : Char) : Bool := c.isAlphanum || c == '_'

/-- Whitespace characters of the regex whitespace class, ASCII scope. -/
def isWsChar (c : Char) : Bool :=
  c == ' ' || c == '\t' || c == '\n' || c == '\r' || c == '\x0b' || c == '\x0c'

/-- Regular expression syntax sufficient for the redaction pattern table:
empty, literal character, character class, concatenation, alternation,
greedy star, word boundary and a capturing group. -/
inductive RE : Type where
  | eps : RE
  | lit : Char → RE
  | cls : (Char → Bool) → RE
  | seq : RE → RE → RE
  | alt : RE → RE → RE
  | star : RE → RE
  | wb : RE
  | grp : RE → RE

/-- Result of a match attempt: the remaining suffix after the match together
with the text captured by the group, when one matched. -/
abbrev MRes := Option (List Char × Option (List Char))

/-- Continuation of the backtracking matcher: previous character (for word
boundaries), remaining input, capture so far. -/
abbrev MCont := Option Char → List Char → Option (List Char) → MRes

/-- Backtracking matcher in continuation style mirroring the re module on the
table patterns: leftmost match attempted by the caller, greedy quantifiers,
ordered alternation, case insensitive comparison (the IGNORECASE flag used by
the redactor), word boundaries. The fuel only bounds recursion depth and is
chosen by callers far above the depth any table pattern can reach. -/
def reM : Nat → RE → Option Char → List Char → Option (List Char) → MCont → MRes
  | 0, _, _, _, _, _ => none
  | Nat.succ fuel, r, prev, s, cap, k =>
    match r with
    | RE.eps => k prev s cap
    | RE.lit c =>
      match s with
      | [] => none
      | d :: ds => if d.toLower == c.toLower then k (some d) ds cap else none
    | RE.cls p =>
      match s with
      | [] => none
      | d :: ds => if p d || p d.toLower || p d.toUpper then k (some d) ds cap else none
    | RE.seq a b => reM fuel a prev s cap (fun p2 s2 c2 => reM fuel b p2 s2 c2 k)
    | RE.alt a b =>
      match reM fuel a prev s cap k with
      | some res => some res
      | none => reM fuel b prev s cap k
    | RE.star a =>
      match reM fuel a prev s cap (fun p2 s2 c2 => reM fuel (RE.star a) p2 s2 c2 k) with
      | some res => some res
      | none => k prev s cap
    | RE.wb =>
      let pw := match prev with | none => false | some d => isWordChar d
      let nw := match s with | [] => false | d :: _ => isWordChar d
      if pw != nw then k prev s cap else none
    | RE.grp a =>
      reM fuel a prev s cap (fun p2 s2 _ => k p2 s2 (some (s.take (s.length - s2.length))))

/-- Attempt to match a pattern exactly at the start of the character list. -/
def reTry (r : RE) (prev : Option Char) (s : List Char) : MRes :=
  reM (20 * s.length + 2000) r prev s none (fun _ s2 cap => some (s2, cap))

/-- The fixed placeholder substituted for every match. -/
def redactedToken : String := "[REDACTED]"

/-- One scanning pass of a single pattern over a character list, as one
findall plus sub call of the re module: all non overlapping matches left to
right; the first component is the text with every match replaced by the
placeholder, the second lists per match the string findall reports, namely
the capture for a pattern with a group and the whole match otherwise (every
table pattern has at most one group). A zero width match cannot arise from
the table patterns, each of which requires a character; that branch merely
keeps the recursion total. -/
def scanM : Nat → RE → Option Char → List Char → List Char × List (List Char)
  | 0, _, _, s => (s, [])
  | _, _, _, [] => ([], [])
  | Nat.succ fuel, r, prev, c :: cs =>
    match reTry r prev (c :: cs) with
    | some (rest, cap) =>
      let n := (c :: cs).length - rest.length
      if n = 0 then
        let tail := scanM fuel r (some c) cs
        (c :: tail.1, tail.2)
      else
        let matched := (c :: cs).take n
        let tail := scanM fuel r (some (matched.getLastD c)) rest
        (redactedToken.toList ++ tail.1,
          (match cap with | some g => g | none => matched) :: tail.2)
    | none =>
      let tail := scanM fuel r (some c) cs
      (c :: tail.1, tail.2)

/-- Scan one pattern over a string, returning substituted text and the
findall results. -/
def scanPattern (r : RE) (t : String) : String × List String :=
  let cs := t.toList
  let res := scanM (cs.length + 2) r none cs
  (String.mk res.1, res.2.map String.mk)

/-- Sequence a list of regex pieces. -/
def reSeqs : List RE → RE
  | [] => RE.eps
  | [r] => r
  | r :: rs => RE.seq r (reSeqs rs)

/-- Ordered alternation of a list of regex pieces (used non empty only). -/
def reAlts : List RE → RE
  | [] => RE.eps
  | [r] => r
  | r :: rs => RE.alt r (reAlts rs)

/-- Literal word. -/
def reStr (s : String) : RE := reSeqs (s.toList.map RE.lit)

/-- Greedy plus. -/
def rePlus (r : RE) : RE := RE.seq r (RE.star r)

/-- Greedy option. -/
def reOpt (r : RE) : RE := RE.alt r RE.eps

def clsAlphaWs : RE := RE.cls (fun c => c.isAlpha || isWsChar c)
def clsDigit : RE := RE.cls Char.isDigit
def clsWs : RE := RE.cls isWsChar
def clsUpper : RE := RE.cls (fun c => decide ('A' ≤ c) && decide (c ≤ 'Z'))
def clsUpperDigit : RE := RE.cls (fun c => (decide ('A' ≤ c) && decide (c ≤ 'Z')) || c.isDigit)
def clsUpperDigitDash : RE :=
  RE.cls (fun c => (decide ('A' ≤ c) && decide (c ≤ 'Z')) || c.isDigit || c == '-')
def clsEmailLocal : RE :=
  RE.cls (fun c => c.isAlphanum || c == '.' || c == '_' || c == '%' || c == '+' || c == '-')
def clsDomain : RE := RE.cls (fun c => c.isAlphanum || c == '.' || c == '-')
def clsTld : RE :=
  RE.cls (fun c => (decide ('A' ≤ c) && decide (c ≤ 'Z')) || c == '|' || (decide ('a' ≤ c) && decide (c ≤ 'z')))
def clsSep : RE := RE.cls (fun c => c == '-' || c == '.')
def clsNotWs : RE := RE.cls (fun c => !isWsChar c)

/-- Agency abbreviation alternation of the first government pattern. -/
def govAgencyWords : RE :=
  reAlts [reStr "VA", reStr "GSA", reStr "DOD", reStr "DHS", reStr "USACE",
          reStr "NAVY", reStr "ARMY", reStr "AIR FORCE", reStr "MARINES"]

def patGov1 : RE := reSeqs [RE.wb, RE.grp govAgencyWords, RE.wb]

def patGov2 : RE :=
  reSeqs [RE.wb, RE.grp (reSeqs [reStr "Department of ", rePlus clsAlphaWs]), RE.wb]

def patGov3 : RE :=
  reSeqs [RE.wb,
    RE.grp (reSeqs [reStr "U.S. ", rePlus clsAlphaWs, reStr " Administration"]), RE.wb]

/-- Two to five capitals, expanded greedily as the re module treats the
bounded repetition, then a space and the word Command. -/
def patGov4 : RE :=
  reSeqs [RE.wb,
    RE.grp (reSeqs [clsUpper, clsUpper,
      reOpt (reSeqs [clsUpper, reOpt (reSeqs [clsUpper, reOpt clsUpper])]),
      reStr " Command"]), RE.wb]

def patEmail : RE :=
  reSeqs [RE.wb, rePlus clsEmailLocal, RE.lit '@', rePlus clsDomain, RE.lit '.',
    clsTld, rePlus clsTld, RE.wb]

def patPhone : RE :=
  reSeqs [RE.wb, clsDigit, clsDigit, clsDigit, reOpt clsSep,
    clsDigit, clsDigit, clsDigit, reOpt clsSep,
    clsDigit, clsDigit, clsDigit, clsDigit, RE.wb]

def patUrl : RE :=
  reSeqs [RE.wb, reStr "http", reOpt (RE.lit 's'), reStr "://", rePlus clsNotWs, RE.wb]

def patWww : RE := reSeqs [RE.wb, reStr "www.", rePlus clsNotWs, RE.wb]

/-- Labeled identifier pattern: the label, optional spacing, optional colon,
optional spacing, then one or more body characters. -/
def labelNum (label : String) (body : RE) : RE :=
  reSeqs [RE.wb, reStr label, RE.star clsWs, reOpt (RE.lit ':'), RE.star clsWs,
    rePlus body, RE.wb]

def patDuns : RE := labelNum "DUNS" clsDigit
def patUei : RE := labelNum "UEI" clsUpperDigit
def patSam : RE := labelNum "SAM" clsUpperDigit
def patCage : RE := labelNum "CAGE" clsUpperDigit
def patSolicitation : RE := labelNum "Solicitation" clsUpperDigitDash
def patContract : RE := labelNum "Contract" clsUpperDigitDash

def streetSuffixWords : RE :=
  reAlts [reStr "Street", reStr "St", reStr "Avenue", reStr "Ave", reStr "Road",
          reStr "Rd", reStr "Drive", reStr "Dr", reStr "Boulevard", reStr "Blvd"]

def patStreet : RE :=
  reSeqs [RE.wb, rePlus clsDigit, rePlus clsWs, rePlus clsAlphaWs,
    RE.grp streetSuffixWords, RE.wb]

def patBuilding : RE :=
  reSeqs [RE.wb, rePlus clsAlphaWs, rePlus clsWs, reStr "Building",
    rePlus clsWs, rePlus clsDigit, RE.wb]

def installWords : RE := reAlts [reStr "Base", reStr "AFB", reStr "Naval", reStr "Fort"]

def patInstall : RE :=
  reSeqs [RE.wb, rePlus clsAlphaWs, rePlus clsWs, RE.grp installWords, RE.wb]

/-- The static pattern table of init redaction patterns, categories and
patterns in source order. -/
def redactionPatterns : List (String × List RE) :=
  [("government_agencies", [patGov1, patGov2, patGov3, patGov4]),
   ("contact_info", [patEmail, patPhone, patUrl, patWww]),
   ("federal_codes", [patDuns, patUei, patSam, patCage, patSolicitation, patContract]),
   ("specific_locations", [patStreet, patBuilding, patInstall])]

/-- Apply the patterns of one category in order to the working text,
substituting only when findall reported matches, exactly as redact text
does, and emit one Removed line per match. -/
def applyPatterns (cat : String) : List RE → String → String × List String
  | [], t => (t, [])
  | p :: ps, t =>
    let res := scanPattern p t
    let next := if res.2.isEmpty then t else res.1
    let tail := applyPatterns cat ps next
    (tail.1, res.2.map (fun m => "Removed " ++ cat ++ ": " ++ m) ++ tail.2)

/-- Apply all categories in table order, later categories seeing the text
already substituted by earlier ones. -/
def applyCats : List (String × List RE) → String → String × List String
  | [], t => (t, [])
  | (cat, ps) :: rest, t =>
    let res := applyPatterns cat ps t
    let tail := applyCats rest res.1
    (tail.1, res.2 ++ tail.2)

/-- The redact text operation of the ContentRedactor: substituted text plus
the Removed lines in category, pattern, match order. -/
def redactText (t : String) : String × List String := applyCats redactionPatterns t

def raKey : String := "redaction_applied"
def rtKey : String := "redaction_timestamp"

/-- The per entry loop of redact content: every string valued binding is
replaced by its redacted text and contributes its Removed lines prefixed by
the section key; every other binding passes through untouched. -/
def redactEntries : List (String × PyVal) → List (String × PyVal) × List String
  | [] => ([], [])
  | (k, v) :: rest =>
    let tail := redactEntries rest
    match v with
    | PyVal.vStr s =>
      let res := redactText s
      ((k, PyVal.vStr res.1) :: tail.1, res.2.map (fun m => k ++ ": " ++ m) ++ tail.2)
    | _ => ((k, v) :: tail.1, tail.2)

/-- The redact content operation: redact every string valued section of the
copied record, then set the redaction applied flag and the completion
timestamp; the timestamp, ambient wall clock time in the source, is passed
explicitly. Returns the redacted record and the summary. -/
def redactContent (content : List (String × PyVal)) (ts : String) :
    List (String × PyVal) × List String :=
  let res := redactEntries content
  (setKey (setKey res.1 raKey (PyVal.vBool true)) rtKey (PyVal.vStr ts), res.2)

/-! JSON decoding as performed by json.loads on the extracted brace span.
Standard JSON values; numbers become rationals (the literals the claims
touch, 0.5 and 0.0, are exact); the nonstandard NaN and Infinity literals
accepted by the Python module are floating point specific and out of scope,
as are surrogate pair escapes; the inputs decided here are plain ASCII. -/

def openBraceChar : Char := Char.ofNat 123
def closeBraceChar : Char := Char.ofNat 125

/-- Whitespace skipped by the json module between tokens. -/
def jsonWs (c : Char) : Bool := c == ' ' || c == '\t' || c == '\n' || c == '\r'

def skipWs : List Char → List Char
  | [] => []
  | c :: cs => if jsonWs c then skipWs cs else c :: cs

def hexVal (c : Char) : Option Nat :=
  if c.isDigit then some (c.toNat - 48)
  else if decide ('a' ≤ c) && decide (c ≤ 'f') then some (c.toNat - 87)
  else if decide ('A' ≤ c) && decide (c ≤ 'F') then some (c.toNat - 55)
  else none

/-- JSON string body after the opening quote: ordinary characters, the
standard escapes, four digit hex escapes; unescaped control characters are
rejected as in strict mode. -/
def parseJStr : Nat → List Char → List Char → Option (String × List Char)
  | 0, _, _ => none
  | Nat.succ fuel, acc, cs =>
    match cs with
    | [] => none
    | c :: rest =>
      if c == '"' then some (String.mk acc.reverse, rest)
      else if c == '\\' then
        match rest with
        | [] => none
        | e :: rest2 =>
          if e == '"' then parseJStr fuel ('"' :: acc) rest2
          else if e == '\\' then parseJStr fuel ('\\' :: acc) rest2
          else if e == '/' then parseJStr fuel ('/' :: acc) rest2
          else if e == 'b' then parseJStr fuel ('\x08' :: acc) rest2
          else if e == 'f' then parseJStr fuel ('\x0c' :: acc) rest2
          else if e == 'n' then parseJStr fuel ('\n' :: acc) rest2
          else if e == 'r' then parseJStr fuel ('\r' :: acc) rest2
          else if e == 't' then parseJStr fuel ('\t' :: acc) rest2
          else if e == 'u' then
            match rest2 with
            | h1 :: h2 :: h3 :: h4 :: rest3 =>
              match hexVal h1, hexVal h2, hexVal h3, hexVal h4 with
              | some a, some b, some c2, some d =>
                parseJStr fuel (Char.ofNat (((a * 16 + b) * 16 + c2) * 16 + d) :: acc) rest3
              | _, _, _, _ => none
            | _ => none
          else none
      else if c.toNat < 32 then none
      else parseJStr fuel (c :: acc) rest

def takeDigits : List Char → List Char × List Char
  | [] => ([], [])
  | c :: cs =>
    if c.isDigit then
      let res := takeDigits cs
      (c :: res.1, res.2)
    else ([], c :: cs)

def digitsToNat (ds : List Char) : Nat := ds.foldl (fun a c => a * 10 + (c.toNat - 48)) 0

/-- JSON number: optional minus, integer part without a spurious leading
zero, optional fraction, optional exponent, exactly the spans the json
number grammar accepts (a span it would cut short leaves a character no
enclosing context accepts, so rejecting here gives the same loads outcome). -/
def parseNum (cs : List Char) : Option (ℚ × List Char) :=
  let signed := match cs with
    | c :: rest => if c == '-' then (true, rest) else (false, cs)
    | [] => (false, ([] : List Char))
  let ints := takeDigits signed.2
  match ints.1 with
  | [] => none
  | d0 :: drest =>
    if d0 == '0' && !drest.isEmpty then none
    else
      let fracs := match ints.2 with
        | dot :: rest => if dot == '.' then some (takeDigits rest) else none
        | [] => none
      match fracs with
      | some ([], _) => none
      | _ =>
        let fr := match fracs with | some p => p | none => ([], ints.2)
        let exps := match fr.2 with
          | e :: rest =>
            if e == 'e' || e == 'E' then
              let es := match rest with
                | s :: rest2 =>
                  if s == '-' then (true, rest2)
                  else if s == '+' then (false, rest2) else (false, rest)
                | [] => (false, ([] : List Char))
              let eds := takeDigits es.2
              match eds.1 with
              | [] => none
              | _ => some (es.1, digitsToNat eds.1, eds.2)
            else none
          | [] => none
        let mant : ℚ := (digitsToNat (ints.1 ++ fr.1) : ℚ) / (10 : ℚ) ^ fr.1.length
        let withExp : ℚ × List Char := match exps with
          | some (en, ev, er) =>
            (if en then mant / (10 : ℚ) ^ ev else mant * (10 : ℚ) ^ ev, er)
          | none => (mant, fr.2)
        some (if signed.1 then -withExp.1 else withExp.1, withExp.2)

/-- Strip a literal word. -/
def dropLit : List Char → List Char → Option (List Char)
  | [], cs => some cs
  | _ :: _, [] => none
  | l :: ls, c :: cs => if c == l then dropLit ls cs else none

/-- Parsing mode: a single value, the remainder of an object body, the
remainder of an array body. -/
inductive JMode : Type where
  | val : JMode
  | objRest : List (String × PyVal) → JMode
  | arrRest : List PyVal → JMode

/-- Recursive descent JSON parser; object members are inserted with dict
assignment so that a duplicated key keeps its first position with the last
value, as a Python dict built by the decoder. -/
def jParse : Nat → JMode → List Char → Option (PyVal × List Char)
  | 0, _, _ => none
  | Nat.succ fuel, JMode.val, cs =>
    match skipWs cs with
    | [] => none
    | c :: rest =>
      if c == '"' then
        match parseJStr (rest.length + 2) [] rest with
        | some (s, r) => some (PyVal.vStr s, r)
        | none => none
      else if c == openBraceChar then
        match skipWs rest with
        | [] => none
        | c2 :: rest2 =>
          if c2 == closeBraceChar then some (PyVal.vDict [], rest2)
          else jParse fuel (JMode.objRest []) (c2 :: rest2)
      else if c == '[' then
        match skipWs rest with
        | [] => none
        | c2 :: rest2 =>
          if c2 == ']' then some (PyVal.vList [], rest2)
          else jParse fuel (JMode.arrRest []) (c2 :: rest2)
      else if c == 't' then
        match dropLit ['r', 'u', 'e'] rest with
        | some r => some (PyVal.vBool true, r)
        | none => none
      else if c == 'f' then
        match dropLit ['a', 'l', 's', 'e'] rest with
        | some r => some (PyVal.vBool false, r)
        | none => none
      else if c == 'n' then
        match dropLit ['u', 'l', 'l'] rest with
        | some r => some (PyVal.vNull, r)
        | none => none
      else if c == '-' || c.isDigit then
        match parseNum (c :: rest) with
        | some (q, r) => some (PyVal.vNum q, r)
        | none => none
      else none
  | Nat.succ fuel, JMode.objRest acc, cs =>
    match skipWs cs with
    | [] => none
    | c :: rest =>
      if c == '"' then
        match parseJStr (rest.length + 2) [] rest with
        | none => none
        | some (key, r2) =>
          match skipWs r2 with
          | [] => none
          | c2 :: r3 =>
            if c2 == ':' then
              match jParse fuel JMode.val r3 with
              | none => none
              | some (v, r4) =>
                let acc2 := setKey acc key v
                match skipWs r4 with
                | [] => none
                | c3 :: r5 =>
                  if c3 == ',' then jParse fuel (JMode.objRest acc2) r5
                  else if c3 == closeBraceChar then some (PyVal.vDict acc2, r5)
                  else none
            else none
      else none
  | Nat.succ fuel, JMode.arrRest acc, cs =>
    match jParse fuel JMode.val cs with
    | none => none
    | some (v, r) =>
      match skipWs r with
      | [] => none
      | c :: r2 =>
        if c == ',' then jParse fuel (JMode.arrRest (acc ++ [v])) r2
        else if c == ']' then some (PyVal.vList (acc ++ [v]), r2)
        else none

/-- The json loads call on a string: one value surrounded by optional
whitespace, trailing data rejected. -/
def jsonLoads (s : String) : Option PyVal :=
  let cs := s.toList
  match jParse (8 * cs.length + 64) JMode.val cs with
  | some (v, rest) => if (skipWs rest).isEmpty then some v else none
  | none => none

/-- The brace search of parse extraction response: the regex looking for an
open brace followed, possibly across newlines, greedily by a close brace
matches from the first open brace to the last close brace when that close
brace lies further right, and fails otherwise. -/
def extractBraces (t : String) : Option String :=
  let cs := t.toList
  match cs.findIdx? (fun c => c == openBraceChar) with
  | none => none
  | some i =>
    match cs.reverse.findIdx? (fun c => c == closeBraceChar) with
    | none => none
    | some jr =>
      let j := cs.length - 1 - jr
      if i < j then some (String.mk ((cs.drop i).take (j - i + 1))) else none

/-- The nine recognized section keys, in prompt order. -/
def sectionKeys : List String :=
  ["project_overview", "scope_of_work", "deliverables", "timeline", "location",
   "submission_requirements", "technical_requirements", "qualifications",
   "evaluation_criteria"]

/-- The manual parse response fallback record, fields in source order. -/
def manualParseResponse (t : String) : PyVal :=
  PyVal.vDict
    [("project_overview", PyVal.vStr "AI extraction completed but formatting failed"),
     ("scope_of_work", PyVal.vStr (t.take 500 ++ "...")),
     ("deliverables", PyVal.vStr "Not specified"),
     ("timeline", PyVal.vStr "Not specified"),
     ("location", PyVal.vStr "Not specified"),
     ("submission_requirements", PyVal.vStr "Not specified"),
     ("technical_requirements", PyVal.vStr "Not specified"),
     ("qualifications", PyVal.vStr "Not specified"),
     ("evaluation_criteria", PyVal.vStr "Not specified"),
     ("extracted_sections", PyVal.vList [PyVal.vStr "raw_content"]),
     ("confidence_score", PyVal.vNum (1 / 2))]

/-- The parse extraction response operation: decode the brace span when one
is found and decoding succeeds, returning the decoded value unchanged;
otherwise fall back to the manual parse. -/
def parseExtractionResponse (t : String) : PyVal :=
  match extractBraces t with
  | some s =>
    match jsonLoads s with
    | some v => v
    | none => manualParseResponse t
  | none => manualParseResponse t

/-- Lookup inside a record valued result. -/
def recLookup : PyVal → String → Option PyVal
  | PyVal.vDict l, k => lookupKey l k
  | _, _ => none

/-- Whether a value is a string, the isinstance test of the redaction loop. -/
def isStrVal : PyVal → Bool
  | PyVal.vStr _ => true
  | _ => false

/-- The end to end scenario record of the specification. -/
def c6Record : List (String × PyVal) :=
  [("location", PyVal.vStr "Wright-Patterson AFB, Ohio"),
   ("technical_requirements", PyVal.vStr "Contact: rfq@agency.gov")]

/-! Helper lemmas about record updates and the redaction loop. -/

theorem lookupKey_setKey_self (L : List (String × PyVal)) (key : String) (v : PyVal) :
    lookupKey (setKey L key v) key = some v := by
  induction L with
  | nil => simp [setKey, lookupKey]
  | cons e rest ih =>
    obtain ⟨k, w⟩ := e
    by_cases h : k = key
    · simp [setKey, h, lookupKey]
    · simp [setKey, h, lookupKey, ih]

theorem lookupKey_setKey_ne (L : List (String × PyVal)) (key k : String) (v : PyVal)
    (h : k ≠ key) : lookupKey (setKey L key v) k = lookupKey L k := by
  induction L with
  | nil => simp [setKey, lookupKey, Ne.symm h]
  | cons e rest ih =>
    obtain ⟨k2, w⟩ := e
    by_cases h2 : k2 = key
    · subst h2
      simp [setKey, lookupKey, Ne.symm h]
    · by_cases h3 : k2 = k
      · simp [setKey, h2, lookupKey, h3, h]
      · simp [setKey, h2, lookupKey, h3, ih]

theorem mem_keysOf_setKey (L : List (String × PyVal)) (key : String) (v : PyVal) (k : String) :
    k ∈ keysOf (setKey L key v) ↔ k ∈ keysOf L ∨ k = key := by
  induction L with
  | nil => simp [setKey, keysOf]
  | cons e rest ih =>
    obtain ⟨k2, w⟩ := e
    by_cases h : k2 = key
    · subst h
      simp [setKey, keysOf]
      tauto
    · simp [setKey, h, keysOf] at ih ⊢
      tauto

theorem eraseKey_setKey (L : List (String × PyVal)) (key : String) (v : PyVal) :
    eraseKey (setKey L key v) key = eraseKey L key := by
  induction L with
  | nil => simp [setKey, eraseKey]
  | cons e rest ih =>
    obtain ⟨k2, w⟩ := e
    by_cases h : k2 = key
    · subst h
      simp [setKey, eraseKey, List.filter]
    · have hb : (k2 != key) = true := by simpa [bne_iff_ne] using h
      simp [setKey, h, eraseKey, List.filter, hb, ih]
      simpa [eraseKey] using ih

theorem keysOf_redactEntries (L : List (String × PyVal)) :
    keysOf (redactEntries L).1 = keysOf L := by
  induction L with
  | nil => rfl
  | cons e rest ih =>
    obtain ⟨k, v⟩ := e
    cases v <;> simp [redactEntries, keysOf] <;> simpa [keysOf] using ih

theorem lookup_redactEntries_str : ∀ (L : List (String × PyVal)) (k s : String),
    lookupKey L k = some (PyVal.vStr s) →
    lookupKey (redactEntries L).1 k = some (PyVal.vStr (redactText s).1)
  | [], k, s, h => by simp [lookupKey] at h
  | (k2, v) :: rest, k, s, h => by
    by_cases h2 : k2 = k
    · cases v with
      | vStr s2 =>
        have hs : s2 = s := by simpa [lookupKey, h2] using h
        subst hs
        simp [redactEntries, lookupKey, h2]
      | vNum q => simp [lookupKey, h2] at h
      | vBool b => simp [lookupKey, h2] at h
      | vNull => simp [lookupKey, h2] at h
      | vList l => simp [lookupKey, h2] at h
      | vDict l => simp [lookupKey, h2] at h
    · have h3 : lookupKey rest k = some (PyVal.vStr s) := by simpa [lookupKey, h2] using h
      cases v <;> simp [redactEntries, lookupKey, h2] <;>
        exact lookup_redactEntries_str rest k s h3

theorem lookup_redactEntries_nonstr : ∀ (L : List (String × PyVal)) (k : String) (v : PyVal),
    isStrVal v = false → lookupKey L k = some v →
    lookupKey (redactEntries L).1 k = some v
  | [], k, v, _, h => by simp [lookupKey] at h
  | (k2, w) :: rest, k, v, hv, h => by
    by_cases h2 : k2 = k
    · have hw : w = v := by simpa [lookupKey, h2] using h
      subst hw
      cases w with
      | vStr s => simp [isStrVal] at hv
      | vNum q => simp [redactEntries, lookupKey, h2]
      | vBool b => simp [redactEntries, lookupKey, h2]
      | vNull => simp [redactEntries, lookupKey, h2]
      | vList l => simp [redactEntries, lookupKey, h2]
      | vDict l => simp [redactEntries, lookupKey, h2]
    · have h3 : lookupKey rest k = some v := by simpa [lookupKey, h2] using h
      cases w <;> simp [redactEntries, lookupKey, h2] <;>
        exact lookup_redactEntries_nonstr rest k v hv h3

theorem redactEntries_snd_filter : ∀ L : List (String × PyVal),
    (redactEntries L).2 = (redactEntries (L.filter (fun e => isStrVal e.2))).2
  | [] => rfl
  | (k, v) :: rest => by
    cases v with
    | vStr s => simp [redactEntries, List.filter, isStrVal, redactEntries_snd_filter rest]
    | vNum q =>
      simp only [redactEntries, List.filter, isStrVal]
      exact redactEntries_snd_filter rest
    | vBool b =>
      simp only [redactEntries, List.filter, isStrVal]
      exact redactEntries_snd_filter rest
    | vNull =>
      simp only [redactEntries, List.filter, isStrVal]
      exact redactEntries_snd_filter rest
    | vList l =>
      simp only [redactEntries, List.filter, isStrVal]
      exact redactEntries_snd_filter rest
    | vDict l =>
      simp only [redactEntries, List.filter, isStrVal]
      exact redactEntries_snd_filter rest

theorem applyPatterns_mem : ∀ (cat : String) (ps : List RE) (t e : String),
    e ∈ (applyPatterns cat ps t).2 → ∃ m, e = "Removed " ++ cat ++ ": " ++ m
  | cat, [], t, e, h => by simp [applyPatterns] at h
  | cat, p :: ps, t, e, h => by
    simp only [applyPatterns, List.mem_append] at h
    rcases h with h | h
    · obtain ⟨m, _, hm⟩ := List.mem_map.mp h
      exact ⟨m, hm.symm⟩
    · exact applyPatterns_mem cat ps _ e h

theorem applyCats_mem : ∀ (table : List (String × List RE)) (t e : String),
    e ∈ (applyCats table t).2 →
    ∃ cat ps m, (cat, ps) ∈ table ∧ e = "Removed " ++ cat ++ ": " ++ m
  | [], t, e, h => by simp [applyCats] at h
  | (cat, ps) :: rest, t, e, h => by
    simp only [applyCats, List.mem_append] at h
    rcases h with h | h
    · obtain ⟨m, hm⟩ := applyPatterns_mem cat ps t e h
      exact ⟨cat, ps, m, List.mem_cons_self _ _, hm⟩
    · obtain ⟨c2, p2, m, hmem, hm⟩ := applyCats_mem rest _ e h
      exact ⟨c2, p2, m, List.mem_cons_of_mem _ hmem, hm⟩

theorem redactEntries_mem : ∀ (L : List (String × PyVal)) (e : String),
    e ∈ (redactEntries L).2 →
    ∃ k s r, (k, PyVal.vStr s) ∈ L ∧ r ∈ (redactText s).2 ∧ e = k ++ ": " ++ r
  | [], e, h => by simp [redactEntries] at h
  | (k2, v) :: rest, e, h => by
    cases v with
    | vStr s =>
      simp only [redactEntries, List.mem_append] at h
      rcases h with h | h
      · obtain ⟨r, hr, he⟩ := List.mem_map.mp h
        exact ⟨k2, s, r, List.mem_cons_self _ _, hr, he.symm⟩
      · obtain ⟨k3, s3, r, hmem, hr, he⟩ := redactEntries_mem rest e h
        exact ⟨k3, s3, r, List.mem_cons_of_mem _ hmem, hr, he⟩
    | vNum q =>
      simp only [redactEntries] at h
      obtain ⟨k3, s3, r, hmem, hr, he⟩ := redactEntries_mem rest e h
      exact ⟨k3, s3, r, List.mem_cons_of_mem _ hmem, hr, he⟩
    | vBool b =>
      simp only [redactEntries] at h
      obtain ⟨k3, s3, r, hmem, hr, he⟩ := redactEntries_mem rest e h
      exact ⟨k3, s3, r, List.mem_cons_of_mem _ hmem, hr, he⟩
    | vNull =>
      simp only [redactEntries] at h
      obtain ⟨k3, s3, r, hmem, hr, he⟩ := redactEntries_mem rest e h
      exact ⟨k3, s3, r, List.mem_cons_of_mem _ hmem, hr, he⟩
    | vList l =>
      simp only [redactEntries] at h
      obtain ⟨k3, s3, r, hmem, hr, he⟩ := redactEntries_mem rest e h
      exact ⟨k3, s3, r, List.mem_cons_of_mem _ hmem, hr, he⟩
    | vDict l =>
      simp only [redactEntries] at h
      obtain ⟨k3, s3, r, hmem, hr, he⟩ := redactEntries_mem rest e h
      exact ⟨k3, s3, r, List.mem_cons_of_mem _ hmem, hr, he⟩

/-! Claim theorems. -/

/-- C1 counterexample: a brace delimited literal that decodes with a key
overlapping the expected section key set is returned with no filling at all;
the expected key location is simply absent rather than set to Not
specified. -/
theorem c1_counterexample :
    parseExtractionResponse "\x7b\x22timeline\x22: \x22x\x22\x7d"
        = PyVal.vDict [("timeline", PyVal.vStr "x")]
      ∧ recLookup (parseExtractionResponse "\x7b\x22timeline\x22: \x22x\x22\x7d") "location"
        = none
      ∧ "timeline" ∈ sectionKeys :=
  ⟨rfl, rfl, by decide⟩

/-- C1 amended: whenever the brace search finds a span and decoding succeeds,
parse extraction response returns the decoded record exactly as decoded, with
no filling of missing expected section keys, no defaults for the extracted
sections or confidence score fields, and no key overlap check at all. -/
theorem c1_theorem (t s : String) (v : PyVal)
    (h1 : extractBraces t = some s) (h2 : jsonLoads s = some v) :
    parseExtractionResponse t = v := by
  simp [parseExtractionResponse, h1, h2]

/-- C1 witness: a concrete input exercising the primary path of the amended
claim. -/
theorem c1_witness :
    extractBraces "\x7b\x22timeline\x22: \x22x\x22\x7d"
        = some "\x7b\x22timeline\x22: \x22x\x22\x7d"
      ∧ jsonLoads "\x7b\x22timeline\x22: \x22x\x22\x7d"
        = some (PyVal.vDict [("timeline", PyVal.vStr "x")])
      ∧ parseExtractionResponse "\x7b\x22timeline\x22: \x22x\x22\x7d"
        = PyVal.vDict [("timeline", PyVal.vStr "x")] :=
  ⟨rfl, rfl, c1_theorem _ _ _ rfl rfl⟩

/-- C2 counterexample: on the primary path the parse operation can return a
record missing every one of the nine recognized section keys and the
confidence score, refuting the invariant as universally stated. -/
theorem c2_counterexample :
    parseExtractionResponse "\x7b\x22a\x22: \x22b\x22\x7d"
        = PyVal.vDict [("a", PyVal.vStr "b")]
      ∧ recLookup (parseExtractionResponse "\x7b\x22a\x22: \x22b\x22\x7d") "timeline" = none
      ∧ recLookup (parseExtractionResponse "\x7b\x22a\x22: \x22b\x22\x7d") "confidence_score"
        = none :=
  ⟨rfl, rfl, rfl⟩

/-- C2 amended: parse extraction response is total and always returns a
record; when a brace span decodes, the result is the decoded object as is,
which may lack section keys; on the fallback path every one of the nine
recognized section keys is present with a string value and the confidence
score is defined. -/
theorem c2_theorem (t : String) :
    (∃ s v, extractBraces t = some s ∧ jsonLoads s = some v ∧ parseExtractionResponse t = v)
    ∨ (parseExtractionResponse t = manualParseResponse t
       ∧ recLookup (manualParseResponse t) "project_overview"
         = some (PyVal.vStr "AI extraction completed but formatting failed")
       ∧ recLookup (manualParseResponse t) "scope_of_work"
         = some (PyVal.vStr (t.take 500 ++ "..."))
       ∧ recLookup (manualParseResponse t) "deliverables" = some (PyVal.vStr "Not specified")
       ∧ recLookup (manualParseResponse t) "timeline" = some (PyVal.vStr "Not specified")
       ∧ recLookup (manualParseResponse t) "location" = some (PyVal.vStr "Not specified")
       ∧ recLookup (manualParseResponse t) "submission_requirements"
         = some (PyVal.vStr "Not specified")
       ∧ recLookup (manualParseResponse t) "technical_requirements"
         = some (PyVal.vStr "Not specified")
       ∧ recLookup (manualParseResponse t) "qualifications" = some (PyVal.vStr "Not specified")
       ∧ recLookup (manualParseResponse t) "evaluation_criteria"
         = some (PyVal.vStr "Not specified")
       ∧ recLookup (manualParseResponse t) "confidence_score"
         = some (PyVal.vNum (1 / 2))) := by
  cases h1 : extractBraces t with
  | none =>
    right
    exact ⟨by simp [parseExtractionResponse, h1], rfl, rfl, rfl, rfl, rfl, rfl, rfl, rfl, rfl, rfl⟩
  | some s =>
    cases h2 : jsonLoads s with
    | none =>
      right
      exact ⟨by simp [parseExtractionResponse, h1, h2],
             rfl, rfl, rfl, rfl, rfl, rfl, rfl, rfl, rfl, rfl⟩
    | some v =>
      left
      exact ⟨s, v, rfl, h2, by simp [parseExtractionResponse, h1, h2]⟩

/-- C3 counterexample: on the fallback path the project overview section is
not the sentinel Not specified but a fixed failure message, refuting the
clause that every section other than scope of work is Not specified. -/
theorem c3_counterexample :
    recLookup (parseExtractionResponse "hello") "project_overview"
        = some (PyVal.vStr "AI extraction completed but formatting failed")
      ∧ "AI extraction completed but formatting failed" ≠ "Not specified" :=
  ⟨rfl, by decide⟩

/-- C3 amended: when no brace span is found or decoding fails, parse
extraction response returns the fallback record whose scope of work is the
first at most 500 characters of the input followed by the ellipsis marker,
whose project overview is the fixed failure message, whose remaining seven
sections are Not specified, with extracted sections the singleton raw
content and confidence score one half. -/
theorem c3_theorem (t : String)
    (h : extractBraces t = none ∨ ∃ s, extractBraces t = some s ∧ jsonLoads s = none) :
    parseExtractionResponse t = PyVal.vDict
      [("project_overview", PyVal.vStr "AI extraction completed but formatting failed"),
       ("scope_of_work", PyVal.vStr (t.take 500 ++ "...")),
       ("deliverables", PyVal.vStr "Not specified"),
       ("timeline", PyVal.vStr "Not specified"),
       ("location", PyVal.vStr "Not specified"),
       ("submission_requirements", PyVal.vStr "Not specified"),
       ("technical_requirements", PyVal.vStr "Not specified"),
       ("qualifications", PyVal.vStr "Not specified"),
       ("evaluation_criteria", PyVal.vStr "Not specified"),
       ("extracted_sections", PyVal.vList [PyVal.vStr "raw_content"]),
       ("confidence_score", PyVal.vNum (1 / 2))] := by
  rcases h with h | ⟨s, h1, h2⟩
  · simp [parseExtractionResponse, h, manualParseResponse]
  · simp [parseExtractionResponse, h1, h2, manualParseResponse]

/-- C3 witness: the fallback path on a concrete input without braces. -/
theorem c3_witness :
    extractBraces "hello" = none
      ∧ parseExtractionResponse "hello" = PyVal.vDict
        [("project_overview", PyVal.vStr "AI extraction completed but formatting failed"),
         ("scope_of_work", PyVal.vStr ("hello".take 500 ++ "...")),
         ("deliverables", PyVal.vStr "Not specified"),
         ("timeline", PyVal.vStr "Not specified"),
         ("location", PyVal.vStr "Not specified"),
         ("submission_requirements", PyVal.vStr "Not specified"),
         ("technical_requirements", PyVal.vStr "Not specified"),
         ("qualifications", PyVal.vStr "Not specified"),
         ("evaluation_criteria", PyVal.vStr "Not specified"),
         ("extracted_sections", PyVal.vList [PyVal.vStr "raw_content"]),
         ("confidence_score", PyVal.vNum (1 / 2))] :=
  ⟨rfl, c3_theorem "hello" (Or.inl rfl)⟩

/-- C4 counterexample: for the street address pattern, whose regex carries a
capture group, the audit entry records only the captured street suffix and
not the full matched substring. -/
theorem c4_counterexample :
    (redactContent [("scope_of_work", PyVal.vStr "123 Main Street")] "T").2
        = ["scope_of_work: Removed specific_locations: Street"]
      ∧ "scope_of_work: Removed specific_locations: Street"
        ≠ "scope_of_work: Removed specific_locations: 123 Main Street" :=
  ⟨rfl, by decide⟩

/-- C4 amended: every summary entry stems from a string valued section and a
category of the table and has the shape section key, colon, Removed,
category, colon, match text, where the match text is the whole matched
substring for a pattern without a capture group but only the captured
fragment for a pattern with one, as the street address example shows. -/
theorem c4_theorem :
    (∀ (content : List (String × PyVal)) (ts e : String),
       e ∈ (redactContent content ts).2 →
       ∃ k s cat ps m, (k, PyVal.vStr s) ∈ content ∧ (cat, ps) ∈ redactionPatterns
         ∧ e = k ++ ": " ++ ("Removed " ++ cat ++ ": " ++ m))
    ∧ (redactContent [("technical_requirements", PyVal.vStr "jane@example.com")] "T").2
        = ["technical_requirements: Removed contact_info: jane@example.com"] := by
  constructor
  · intro content ts e he
    obtain ⟨k, s, r, hks, hr, he2⟩ := redactEntries_mem content e he
    obtain ⟨cat, ps, m, hcat, hm⟩ := applyCats_mem redactionPatterns s r hr
    exact ⟨k, s, cat, ps, m, hks, hcat, by rw [he2, hm]⟩
  · rfl

/-- C4 witness: the amended shape at a concrete record and entry. -/
theorem c4_witness :
    "a: Removed government_agencies: DOD"
        ∈ (redactContent [("a", PyVal.vStr "DOD")] "T").2
      ∧ ∃ k s cat ps m, (k, PyVal.vStr s) ∈ [("a", PyVal.vStr "DOD")]
        ∧ (cat, ps) ∈ redactionPatterns
        ∧ "a: Removed government_agencies: DOD"
          = k ++ ": " ++ ("Removed " ++ cat ++ ": " ++ m) :=
  ⟨by decide, c4_theorem.1 [("a", PyVal.vStr "DOD")] "T" _ (by decide)⟩

/-- C5 counterexample: two invocations on identical content at distinct
wall clock instants differ in the redaction timestamp field, so the records
are not byte identical. -/
theorem c5_counterexample :
    lookupKey (redactContent [] "A").1 rtKey = some (PyVal.vStr "A")
      ∧ lookupKey (redactContent [] "B").1 rtKey = some (PyVal.vStr "B")
      ∧ redactContent [] "A" ≠ redactContent [] "B" := by
  refine ⟨rfl, rfl, ?_⟩
  intro h
  have h3 := congrArg (fun p => lookupKey p.1 rtKey) h
  have h2 : PyVal.vStr "A" = PyVal.vStr "B" := Option.some.inj h3
  injection h2 with h4
  exact absurd h4 (by decide)

/-- C5 amended: redaction is deterministic apart from the timestamp: for
identical content the summary sequences coincide exactly and the redacted
records coincide on everything except the redaction timestamp binding. -/
theorem c5_theorem (content : List (String × PyVal)) (t1 t2 : String) :
    (redactContent content t1).2 = (redactContent content t2).2
      ∧ eraseKey (redactContent content t1).1 rtKey
        = eraseKey (redactContent content t2).1 rtKey := by
  refine ⟨rfl, ?_⟩
  show eraseKey (setKey (setKey (redactEntries content).1 raKey (PyVal.vBool true)) rtKey
        (PyVal.vStr t1)) rtKey
      = eraseKey (setKey (setKey (redactEntries content).1 raKey (PyVal.vBool true)) rtKey
        (PyVal.vStr t2)) rtKey
  rw [eraseKey_setKey, eraseKey_setKey]

/-- C6 counterexample: the scenario record yields location text
Wright-[REDACTED], Ohio, because the installation pattern cannot cross the
hyphen, not the [REDACTED], Ohio the claim expects. -/
theorem c6_counterexample :
    lookupKey (redactContent c6Record "T").1 "location"
        = some (PyVal.vStr "Wright-[REDACTED], Ohio")
      ∧ "Wright-[REDACTED], Ohio" ≠ "[REDACTED], Ohio" :=
  ⟨rfl, by decide⟩

/-- C6 amended: the scenario record redacts to location Wright-[REDACTED],
Ohio and technical requirements Contact: [REDACTED], with exactly two
summary entries whose categories are specific locations and contact info
respectively, recording the captured fragment AFB and the full email
match. -/
theorem c6_theorem (ts : String) :
    redactContent c6Record ts
      = ([("location", PyVal.vStr "Wright-[REDACTED], Ohio"),
          ("technical_requirements", PyVal.vStr "Contact: [REDACTED]"),
          ("redaction_applied", PyVal.vBool true),
          ("redaction_timestamp", PyVal.vStr ts)],
         ["location: Removed specific_locations: AFB",
          "technical_requirements: Removed contact_info: rfq@agency.gov"]) := rfl

/-- C8: redacting a single section record holding exactly each of the seven
category example literals yields section text equal to the placeholder and
exactly one summary entry tagged with the expected category. -/
theorem c8_theorem :
    redactContent [("scope_of_work", PyVal.vStr "DOD")] "T"
      = ([("scope_of_work", PyVal.vStr "[REDACTED]"),
          ("redaction_applied", PyVal.vBool true), ("redaction_timestamp", PyVal.vStr "T")],
         ["scope_of_work: Removed government_agencies: DOD"])
    ∧ redactContent [("scope_of_work", PyVal.vStr "jane@example.com")] "T"
      = ([("scope_of_work", PyVal.vStr "[REDACTED]"),
          ("redaction_applied", PyVal.vBool true), ("redaction_timestamp", PyVal.vStr "T")],
         ["scope_of_work: Removed contact_info: jane@example.com"])
    ∧ redactContent [("scope_of_work", PyVal.vStr "555-123-4567")] "T"
      = ([("scope_of_work", PyVal.vStr "[REDACTED]"),
          ("redaction_applied", PyVal.vBool true), ("redaction_timestamp", PyVal.vStr "T")],
         ["scope_of_work: Removed contact_info: 555-123-4567"])
    ∧ redactContent [("scope_of_work", PyVal.vStr "https://example.com/x")] "T"
      = ([("scope_of_work", PyVal.vStr "[REDACTED]"),
          ("redaction_applied", PyVal.vBool true), ("redaction_timestamp", PyVal.vStr "T")],
         ["scope_of_work: Removed contact_info: https://example.com/x"])
    ∧ redactContent [("scope_of_work", PyVal.vStr "DUNS: 123456789")] "T"
      = ([("scope_of_work", PyVal.vStr "[REDACTED]"),
          ("redaction_applied", PyVal.vBool true), ("redaction_timestamp", PyVal.vStr "T")],
         ["scope_of_work: Removed federal_codes: DUNS: 123456789"])
    ∧ redactContent [("scope_of_work", PyVal.vStr "123 Main Street")] "T"
      = ([("scope_of_work", PyVal.vStr "[REDACTED]"),
          ("redaction_applied", PyVal.vBool true), ("redaction_timestamp", PyVal.vStr "T")],
         ["scope_of_work: Removed specific_locations: Street"])
    ∧ redactContent [("scope_of_work", PyVal.vStr "Smith AFB")] "T"
      = ([("scope_of_work", PyVal.vStr "[REDACTED]"),
          ("redaction_applied", PyVal.vBool true), ("redaction_timestamp", PyVal.vStr "T")],
         ["scope_of_work: Removed specific_locations: AFB"]) :=
  ⟨rfl, rfl, rfl, rfl, rfl, rfl, rfl⟩

/-- C9 counterexample: a non string value stored under the redaction applied
key is overwritten with true, refuting the claim that every non string field
is left unchanged. -/
theorem c9_counterexample :
    lookupKey (redactContent [(raKey, PyVal.vBool false)] "T").1 raKey
        = some (PyVal.vBool true)
      ∧ PyVal.vBool true ≠ PyVal.vBool false := by
  refine ⟨rfl, ?_⟩
  intro h
  injection h with h2
  exact absurd h2 (by decide)

/-- C9 amended: every non string field whose key is neither redaction
applied nor redaction timestamp passes through unchanged, and non string
fields are never scanned: removing them from the record leaves the summary
untouched, so none contributes an entry. -/
theorem c9_theorem :
    (∀ (content : List (String × PyVal)) (ts k : String) (v : PyVal),
       k ≠ raKey → k ≠ rtKey → isStrVal v = false → lookupKey content k = some v →
       lookupKey (redactContent content ts).1 k = some v)
    ∧ (∀ (content : List (String × PyVal)) (ts : String),
       (redactContent content ts).2
         = (redactContent (content.filter (fun e => isStrVal e.2)) ts).2) := by
  constructor
  · intro content ts k v h1 h2 hv hl
    show lookupKey (setKey (setKey (redactEntries content).1 raKey (PyVal.vBool true)) rtKey
        (PyVal.vStr ts)) k = some v
    rw [lookupKey_setKey_ne _ _ _ _ h2, lookupKey_setKey_ne _ _ _ _ h1]
    exact lookup_redactEntries_nonstr content k v hv hl
  · intro content ts
    exact redactEntries_snd_filter content

/-- C9 witness: the extracted sections list passes through a concrete
redaction unchanged. -/
theorem c9_witness :
    ("extracted_sections" ≠ raKey)
      ∧ ("extracted_sections" ≠ rtKey)
      ∧ isStrVal (PyVal.vList [PyVal.vStr "raw_content"]) = false
      ∧ lookupKey [("extracted_sections", PyVal.vList [PyVal.vStr "raw_content"])]
          "extracted_sections" = some (PyVal.vList [PyVal.vStr "raw_content"])
      ∧ lookupKey
          (redactContent [("extracted_sections", PyVal.vList [PyVal.vStr "raw_content"])]
            "T").1 "extracted_sections"
        = some (PyVal.vList [PyVal.vStr "raw_content"]) :=
  ⟨by decide, by decide, rfl, rfl,
   c9_theorem.1 [("extracted_sections", PyVal.vList [PyVal.vStr "raw_content"])] "T"
     "extracted_sections" (PyVal.vList [PyVal.vStr "raw_content"])
     (by decide) (by decide) rfl rfl⟩

/-- C10: redact content scans every string valued key, known or unknown,
removes no key, returns a record whose key set is exactly the input keys
plus redaction applied, set to true, and redaction timestamp, and rewrites
every string valued binding other than those two to its redacted text. -/
theorem c10_theorem (content : List (String × PyVal)) (ts : String) :
    (∀ k, k ∈ keysOf (redactContent content ts).1
       ↔ (k ∈ keysOf content ∨ k = raKey ∨ k = rtKey))
    ∧ lookupKey (redactContent content ts).1 raKey = some (PyVal.vBool true)
    ∧ (∀ k s, k ≠ raKey → k ≠ rtKey → lookupKey content k = some (PyVal.vStr s) →
       lookupKey (redactContent content ts).1 k = some (PyVal.vStr (redactText s).1)) := by
  refine ⟨?_, ?_, ?_⟩
  · intro k
    show k ∈ keysOf (setKey (setKey (redactEntries content).1 raKey (PyVal.vBool true)) rtKey
        (PyVal.vStr ts)) ↔ _
    rw [mem_keysOf_setKey, mem_keysOf_setKey, keysOf_redactEntries]
    tauto
  · show lookupKey (setKey (setKey (redactEntries content).1 raKey (PyVal.vBool true)) rtKey
        (PyVal.vStr ts)) raKey = some (PyVal.vBool true)
    rw [lookupKey_setKey_ne _ _ _ _ (by decide : raKey ≠ rtKey)]
    exact lookupKey_setKey_self _ _ _
  · intro k s h1 h2 hl
    show lookupKey (setKey (setKey (redactEntries content).1 raKey (PyVal.vBool true)) rtKey
        (PyVal.vStr ts)) k = some (PyVal.vStr (redactText s).1)
    rw [lookupKey_setKey_ne _ _ _ _ h2, lookupKey_setKey_ne _ _ _ _ h1]
    exact lookup_redactEntries_str content k s hl

/-- C10 witness: a key outside the nine section keys is scanned and redacted
like any other string valued key. -/
theorem c10_witness :
    ("weird_key" ≠ raKey)
      ∧ ("weird_key" ≠ rtKey)
      ∧ lookupKey [("weird_key", PyVal.vStr "DOD")] "weird_key" = some (PyVal.vStr "DOD")
      ∧ lookupKey (redactContent [("weird_key", PyVal.vStr "DOD")] "T").1 "weird_key"
        = some (PyVal.vStr (redactText "DOD").1)
      ∧ (redactText "DOD").1 = "[REDACTED]" :=
  ⟨by decide, by decide, rfl,
   (c10_theorem [("weird_key", PyVal.vStr "DOD")] "T").2.2 "weird_key" "DOD"
     (by decide) (by decide) rfl, rfl⟩

end RfqRocket
